import Mathlib

/-!
Verification of the football-detection service (`python-detection-service/`):
frame sampler, job state machine, capacity check, detection fallback and the
`AdvancedTracker` (player nearest-neighbour tracking, ball trajectory
prediction), as implemented in `main.py`, `production_main.py` and
`sota_main.py`.

Conventions of the embedding:
* Python floats carrying coordinates/progress are modelled as `ℚ`.
* The Euclidean distance `((dx)**2 + (dy)**2)**0.5` of
  `AdvancedTracker._calculate_distance` is represented by its square
  (`distSq`); every comparison the source makes on distances
  (`distance < min_distance`, `distance < 100`) is made here on squares
  against the squared bound (`10000`), which is equivalent because
  `Real.sqrt` is strictly monotone on nonnegative inputs.
* Python dicts iterated with `.items()` preserve insertion order; they are
  modelled as association lists in insertion order.
-/

namespace DetectionService

/-! ## Frame sampler (`main.py` lines 138–152, `production_main.py` 435–455)

`frame_interval = max(1, int(fps / config.frameRate))` where `fps` is the
float returned by `cv2.CAP_PROP_FPS`; a frame is handed to the detector iff
`frame_idx % frame_interval == 0`. -/

/-- `max(1, int(fps / frameRate))` from the source; `int()` on a nonnegative
float is the floor. -/
def frame_interval (fps : ℚ) (frameRate : ℕ) : ℕ :=
  max 1 (Int.toNat ⌊fps / (frameRate : ℚ)⌋)

/-- The guard `frame_idx % frame_interval == 0` of the processing loop. -/
def sampledFrame (interval i : ℕ) : Bool :=
  i % interval == 0

/-- Number of frame indices in `[0, totalFrames)` that the loop hands to the
detector. -/
def processedFrames (interval totalFrames : ℕ) : ℕ :=
  ((List.range totalFrames).filter (fun i => sampledFrame interval i)).length

/-- Ceiling division on naturals, `⌈T / k⌉`. -/
def ceilDiv (T k : ℕ) : ℕ :=
  (T + k - 1) / k


/-! ## `AdvancedTracker` (`sota_main.py` lines 187–316)

Positions are the `{"x": …, "y": …}` dicts of the source; player trackers
are the `self.player_trackers` dict (insertion-ordered, keyed by track id),
the ball tracker is `self.ball_tracker`. -/

/-- A 2D position dict `{"x": …, "y": …}`. -/
structure Pos where
  x : ℚ
  y : ℚ
deriving DecidableEq, Repr

/-- Squared Euclidean distance; the source's `_calculate_distance` returns
`((Δx)**2 + (Δy)**2)**0.5` and only ever compares it, so we carry the
square. -/
def distSq (p q : Pos) : ℚ :=
  (p.x - q.x) ^ 2 + (p.y - q.y) ^ 2

/-- `100**2`: the squared form of the `distance < 100` proximity threshold in
`update_players`. -/
def proximityThresholdSq : ℚ := 10000

/-- One entry of `self.player_trackers`: the key (track id) together with the
`last_position` / `prev_position` attributes of the anonymous tracker
object. -/
structure Track where
  id : ℕ
  last_position : Pos
  prev_position : Pos
deriving DecidableEq, Repr

/-- The `history` / `last_position` / `prev_position` attributes of the
anonymous `BallTracker` object. -/
structure BallTrack where
  last_position : Pos
  prev_position : Pos
  history : List Pos
deriving DecidableEq, Repr

/-- The mutable state of an `AdvancedTracker` instance. -/
structure TrackerState where
  player_trackers : List Track
  ball_tracker : Option BallTrack
  next_id : ℕ
deriving DecidableEq, Repr

/-- `AdvancedTracker.__init__`. -/
def TrackerState.init : TrackerState :=
  { player_trackers := [], ball_tracker := none, next_id := 1 }

/-- The fields of a `PlayerDetection` that `update_players` reads or
writes. -/
structure PlayerDet where
  position : Pos
  velocity : Option Pos
  track_id : Option ℕ
deriving DecidableEq, Repr

/-- The fields of a `BallDetection` that `update_ball` reads or writes. -/
structure BallDet where
  position : Pos
  velocity : Option Pos
  track_id : Option ℕ
  trajectory_prediction : Option (List Pos)
deriving DecidableEq, Repr

/-- The accumulator `(best_tracker_id, min_distance)` of the inner loop of
`update_players`; `none` as second component is the initial
`float('inf')`. -/
def bestStep (p : Pos) (acc : Option ℕ × Option ℚ) (t : Track) :
    Option ℕ × Option ℚ :=
  let d := distSq p t.last_position
  if (match acc.2 with
      | none => true
      | some m => decide (d < m)) && decide (d < proximityThresholdSq) then
    (some t.id, some d)
  else acc

/-- The `best_tracker_id` computed by the inner loop of `update_players` over
the insertion-ordered tracker dict. -/
def bestMatch (trackers : List Track) (p : Pos) : Option ℕ :=
  (trackers.foldl (bestStep p) (none, none)).1

/-- Dict lookup `self.player_trackers[tid]`. -/
def getTrack (trackers : List Track) (tid : ℕ) : Option Track :=
  trackers.find? (fun t => t.id == tid)

/-- In-place mutation of the tracker stored under key `tid`. -/
def setTrack (trackers : List Track) (tid : ℕ) (f : Track → Track) :
    List Track :=
  trackers.map (fun t => if t.id == tid then f t else t)

/-- The body of the `for detection in detections` loop of `update_players`:
either assign the best matching tracker's id (updating that tracker and
deriving the velocity from its former `prev_position`), or allocate
`self.next_id` for a fresh tracker. -/
def updateOnePlayer (st : TrackerState) (det : PlayerDet) :
    PlayerDet × TrackerState :=
  match bestMatch st.player_trackers det.position with
  | some tid =>
      let prev :=
        match getTrack st.player_trackers tid with
        | some t => t.prev_position
        | none => det.position
      let det' : PlayerDet :=
        { det with
          track_id := some tid,
          velocity := some ⟨det.position.x - prev.x, det.position.y - prev.y⟩ }
      let trackers' := setTrack st.player_trackers tid
        (fun t => { t with
          last_position := det.position
          prev_position := det.position })
      (det', { st with player_trackers := trackers' })
  | none =>
      let det' : PlayerDet :=
        { det with track_id := some st.next_id, velocity := some ⟨0, 0⟩ }
      (det', { st with
        player_trackers := st.player_trackers ++
          [{ id := st.next_id
             last_position := det.position
             prev_position := det.position }],
        next_id := st.next_id + 1 })

/-- `AdvancedTracker.update_players`: each detection of the frame is matched
in list order against the live tracker pool (which the earlier detections of
the same frame may already have mutated). -/
def update_players (st : TrackerState) (dets : List PlayerDet) :
    List PlayerDet × TrackerState :=
  dets.foldl
    (fun acc det =>
      let r := updateOnePlayer acc.2 det
      (acc.1 ++ [r.1], r.2))
    ([], st)

/-- `AdvancedTracker._predict_trajectory`: average the per-step displacements
of consecutive history entries and extrapolate linearly from the last
position for `steps` future steps. -/
def predict_trajectory (history : List Pos) (steps : ℕ) : List Pos :=
  if history.length < 2 then []
  else
    let vels := (history.zip history.tail).map
      (fun ab => Pos.mk (ab.2.x - ab.1.x) (ab.2.y - ab.1.y))
    let n : ℚ := (vels.length : ℚ)
    let avg_vx := (vels.map Pos.x).sum / n
    let avg_vy := (vels.map Pos.y).sum / n
    let last := (history.getLast?).getD ⟨0, 0⟩
    (List.range steps).map
      (fun step => ⟨last.x + avg_vx * ((step : ℚ) + 1),
                    last.y + avg_vy * ((step : ℚ) + 1)⟩)

/-- `AdvancedTracker.update_ball`: `None` passes through untouched; the first
detection creates the singleton ball track; later detections derive the
velocity from the stored `last_position`, append to the (≤ 10 entry) history
and, once the history holds ≥ 3 samples, attach the trajectory
prediction. -/
def update_ball (st : TrackerState) (ball? : Option BallDet) :
    Option BallDet × TrackerState :=
  match ball? with
  | none => (none, st)
  | some ball =>
    match st.ball_tracker with
    | none =>
        let bt : BallTrack :=
          { last_position := ball.position
            prev_position := ball.position
            history := [ball.position] }
        let ball' : BallDet :=
          { ball with track_id := some 1, velocity := some ⟨0, 0⟩ }
        (some ball', { st with ball_tracker := some bt })
    | some bt =>
        let prev := bt.last_position
        let vel : Pos :=
          ⟨ball.position.x - prev.x, ball.position.y - prev.y⟩
        let hist0 := bt.history ++ [ball.position]
        let hist := if hist0.length > 10 then hist0.drop 1 else hist0
        let pred :=
          if hist.length ≥ 3 then some (predict_trajectory hist 3)
          else ball.trajectory_prediction
        let ball' : BallDet :=
          { ball with
            velocity := some vel
            track_id := some 1
            trajectory_prediction := pred }
        let bt' : BallTrack :=
          { last_position := ball.position
            prev_position := bt.last_position
            history := hist }
        (some ball', { st with ball_tracker := some bt' })

/-! ## Job records and the job-control endpoints

`jobs` (`main.py` line 33) and `active_jobs` (`production_main.py` line 157)
are insertion-ordered dicts from job id to a job record; the claims concern
the record's `status` and `progress` fields. -/

/-- The values the `status` field takes across the service. -/
inductive Status
  | pending
  | processing
  | completed
  | failed
  | cancelled
deriving DecidableEq, Repr

/-- A terminal status: `completed`, `failed` or `cancelled`. -/
def Status.isTerminal : Status → Bool
  | .completed => true
  | .failed => true
  | .cancelled => true
  | _ => false

/-- The job-record fields the claims are about. -/
structure Job where
  status : Status
  progress : ℚ
deriving DecidableEq, Repr

/-- The `jobs` / `active_jobs` dict, keyed by job id. -/
abbrev JobMap := List (String × Job)

/-- `jobs[job_id]` lookup. -/
def lookupJob (jobs : JobMap) (job_id : String) : Option Job :=
  (jobs.find? (fun p => p.1 == job_id)).map Prod.snd

/-- What `cancel_job` returns. -/
inductive CancelOutcome
  | notFound
  | success
deriving DecidableEq, Repr

/-- `cancel_job` (`main.py` lines 235–241): 404 when the id is unknown,
otherwise unconditionally `jobs[job_id]["status"] = "cancelled"` and
`{"success": True}` — there is no check of the current status. -/
def cancel_job (jobs : JobMap) (job_id : String) : CancelOutcome × JobMap :=
  if (jobs.find? (fun p => p.1 == job_id)).isSome then
    (CancelOutcome.success,
     jobs.map (fun p =>
       if p.1 == job_id then (p.1, { p.2 with status := Status.cancelled })
       else p))
  else (CancelOutcome.notFound, jobs)

/-- The finalization writes of `main.py`'s `process_video` (lines 188–190):
once the read loop ends, `jobs[job_id]["status"] = "completed"` and
`jobs[job_id]["progress"] = 100` are written unconditionally — the loop
contains no cancellation check, so these writes also overwrite the status
of a job that was cancelled mid-run. -/
def finalize_completed (jobs : JobMap) (job_id : String) : JobMap :=
  jobs.map (fun p =>
    if p.1 == job_id then
      (p.1, { status := Status.completed, progress := 100 })
    else p)

/-- The progress value written after a sampled frame by
`production_main.py` line 492: `min(95, (frame_idx / total_frames) * 100)`. -/
def progressProd (frame_idx total_frames : ℕ) : ℚ :=
  min 95 ((frame_idx : ℚ) / (total_frames : ℚ) * 100)

/-- The progress value written after a sampled frame by `main.py` line 173:
`(frame_idx / total_frames) * 100`, with no cap. -/
def progressMain (frame_idx total_frames : ℕ) : ℚ :=
  (frame_idx : ℚ) / (total_frames : ℚ) * 100

/-- The `(status, progress)` pairs successively held by a job record while
`process_video_with_real_ml` runs a video of `total_frames` frames with
sampling interval `k` to normal completion: `pending/0` at creation,
`processing/0` at loop entry, `processing/min(95, i/T*100)` after each
sampled frame `i`, and `completed/100` at finalization. -/
def runSnapshots (total_frames k : ℕ) : List Job :=
  ⟨Status.pending, 0⟩ :: ⟨Status.processing, 0⟩ ::
    (((List.range total_frames).filter (fun i => sampledFrame k i)).map
      (fun i => ⟨Status.processing, progressProd i total_frames⟩) ++
     [⟨Status.completed, 100⟩])

/-- What `start_detection_with_ml` returns. -/
inductive StartOutcome
  | capacityError (code : ℕ)
  | started (job_id : String)
deriving DecidableEq, Repr

/-- `len([j for j in active_jobs.values() if j["status"] in
["pending", "processing"]])` (`production_main.py` line 629). -/
def activeCount (jobs : JobMap) : ℕ :=
  (jobs.filter (fun p =>
    p.2.status == Status.pending || p.2.status == Status.processing)).length

/-- `start_detection_with_ml` (`production_main.py` lines 615–658): reject
with HTTP 429 while `active_count >= MAX_CONCURRENT_JOBS`, leaving the job
dict untouched; otherwise register a fresh job with status `pending` and
progress 0 and return its id. (`start_sota_detection`, `sota_main.py`
lines 626–665, performs the identical check.) -/
def start_detection_with_ml (jobs : JobMap) (max_concurrent : ℕ)
    (job_id : String) : StartOutcome × JobMap :=
  if activeCount jobs ≥ max_concurrent then
    (StartOutcome.capacityError 429, jobs)
  else
    (StartOutcome.started job_id, jobs ++ [(job_id, ⟨Status.pending, 0⟩)])

/-! ## Detection provider (`production_main.py` lines 224–402)

`detect_with_yolo` maps the boxes returned by the external `model(frame, …)`
call to player/ball records; whenever ML is unavailable, the model is not
loaded, or the inference raises, it returns the output of
`detect_players_and_ball_mock` instead. The external inference call is the
pluggable collaborator, modelled as an `Except`-valued input; every value
`np.random` produces inside the mock is likewise an explicit input
(`MockDraws`). -/

/-- A bounding box dict `{"x", "y", "width", "height"}`. -/
structure BBox where
  x : ℚ
  y : ℚ
  width : ℚ
  height : ℚ
deriving DecidableEq, Repr

/-- One raw detection coming back from YOLO: class name, confidence and the
`xyxy` corner coordinates. -/
structure YoloBox where
  class_name : String
  conf : ℚ
  x1 : ℚ
  y1 : ℚ
  x2 : ℚ
  y2 : ℚ
deriving DecidableEq, Repr

/-- The player dict built by `detect_with_yolo` /
`detect_players_and_ball_mock` (fields the claims read). -/
structure PlayerRec where
  id : String
  position : Pos
  confidence : ℚ
  team : String
  jersey_number : Option ℕ
  bounding_box : BBox
  class_name : String
deriving DecidableEq, Repr

/-- The ball dict built by `detect_with_yolo` /
`detect_players_and_ball_mock`. -/
structure BallRec where
  position : Pos
  confidence : ℚ
  velocity : Pos
  bounding_box : BBox
  class_name : String
deriving DecidableEq, Repr

/-- The dict a detection call returns (fields the claims read). -/
structure DetectOutput where
  players : List PlayerRec
  ball : Option BallRec
  model_used : String
  gpu_used : Bool
deriving DecidableEq, Repr

/-- `(x1+x2)/2, (y1+y2)/2`: box centre. -/
def boxCenter (b : YoloBox) : Pos :=
  ⟨(b.x1 + b.x2) / 2, (b.y1 + b.y2) / 2⟩

/-- The bounding-box dict built from `xyxy`. -/
def boxBBox (b : YoloBox) : BBox :=
  ⟨b.x1, b.y1, b.x2 - b.x1, b.y2 - b.y1⟩

/-- Player record for a "person" box (team from the frame midline, jersey
number left for OCR). -/
def mkPlayer (width : ℚ) (frame_idx n : ℕ) (b : YoloBox) : PlayerRec :=
  { id := "player_" ++ toString frame_idx ++ "_" ++ toString n
    position := boxCenter b
    confidence := b.conf
    team := if (boxCenter b).x < width / 2 then "home" else "away"
    jersey_number := none
    bounding_box := boxBBox b
    class_name := b.class_name }

/-- Ball record for a "sports ball" box (velocity pinned to `{0,0}` pending
tracking). -/
def mkBall (b : YoloBox) : BallRec :=
  { position := boxCenter b
    confidence := b.conf
    velocity := ⟨0, 0⟩
    bounding_box := boxBBox b
    class_name := b.class_name }

/-- The body of the `for box in boxes` loop of `detect_with_yolo`:
`if class_name == 'person' and config.trackPlayers: players.append(…)`
`elif class_name == 'sports ball' and config.trackBall and ball is None:
ball = …`. -/
def classifyStep (trackPlayers trackBall : Bool) (width : ℚ) (frame_idx : ℕ)
    (acc : List PlayerRec × Option BallRec) (b : YoloBox) :
    List PlayerRec × Option BallRec :=
  if b.class_name == "person" && trackPlayers then
    (acc.1 ++ [mkPlayer width frame_idx acc.1.length b], acc.2)
  else if b.class_name == "sports ball" && trackBall && acc.2.isNone then
    (acc.1, some (mkBall b))
  else acc

/-- The full box loop of `detect_with_yolo` over the inference results, in
iteration order. -/
def classifyBoxes (trackPlayers trackBall : Bool) (width : ℚ)
    (frame_idx : ℕ) (boxes : List YoloBox) :
    List PlayerRec × Option BallRec :=
  boxes.foldl (classifyStep trackPlayers trackBall width frame_idx) ([], none)

/-- The values `detect_players_and_ball_mock` draws from `np.random`,
supplied as explicit inputs (one field per call site, indexed by player
where the source draws inside the player loop). -/
structure MockDraws where
  poisson : ℕ
  player_dx : ℕ → ℚ
  player_dy : ℕ → ℚ
  player_conf : ℕ → ℚ
  jersey_roll : ℕ → ℚ
  jersey_num : ℕ → ℕ
  ball_roll : ℚ
  ball_branch : ℚ
  ball_choice : ℕ
  ball_nx : ℚ
  ball_ny : ℚ
  ball_ux : ℚ
  ball_uy : ℚ
  ball_conf : ℚ
  ball_vx : ℚ
  ball_vy : ℚ

/-- `detect_players_and_ball_mock` (`production_main.py` lines 322–402):
`min(np.random.poisson(8), 12)` players split around the quarter lines with
clamped jitter, and a probabilistically emitted ball near a random player or
at a random field location; the result is tagged `model_used = "mock"`. -/
def detect_players_and_ball_mock (width height : ℚ)
    (trackPlayers trackBall : Bool) (frame_idx : ℕ) (r : MockDraws) :
    DetectOutput :=
  let num_players := min r.poisson 12
  let players : List PlayerRec :=
    if trackPlayers then
      (List.range num_players).map (fun i =>
        let team := if i < num_players / 2 then "home" else "away"
        let x_base :=
          if i < num_players / 2 then width * (1 / 4) else width * (3 / 4)
        let x := max 50 (min (width - 50) (x_base + r.player_dx i))
        let y := max 50 (min (height - 50) (height * (3 / 10) + r.player_dy i))
        { id := "mock_player_" ++ toString frame_idx ++ "_" ++ toString i
          position := ⟨x, y⟩
          confidence := r.player_conf i
          team := team
          jersey_number :=
            if r.jersey_roll i > 7 / 10 then some (r.jersey_num i) else none
          bounding_box := ⟨x - 15, y - 25, 30, 50⟩
          class_name := "person" })
    else []
  let ball : Option BallRec :=
    if trackBall && decide (r.ball_roll > 2 / 5) then
      let raw : Pos :=
        if players.length ≠ 0 then
          if r.ball_branch > 1 / 2 then
            let p := players.getD (r.ball_choice % players.length)
              { id := "", position := ⟨0, 0⟩, confidence := 0, team := ""
                jersey_number := none, bounding_box := ⟨0, 0, 0, 0⟩
                class_name := "" }
            ⟨p.position.x + r.ball_nx, p.position.y + r.ball_ny⟩
          else ⟨r.ball_ux, r.ball_uy⟩
        else ⟨r.ball_ux, r.ball_uy⟩
      let bx := max 10 (min (width - 10) raw.x)
      let yb := max 10 (min (height - 10) raw.y)
      some { position := ⟨bx, yb⟩
             confidence := r.ball_conf
             velocity := ⟨r.ball_vx, r.ball_vy⟩
             bounding_box := ⟨bx - 8, yb - 8, 16, 16⟩
             class_name := "sports ball" }
    else none
  { players := players, ball := ball, model_used := "mock", gpu_used := false }

/-- `detect_with_yolo` (`production_main.py` lines 224–320): if ML is
unavailable or the model is not loaded, return the mock output; otherwise
run the external inference inside the `try` — on an exception fall back to
the mock output, on success map the boxes through the classification loop
and tag the configured model. -/
def detect_with_yolo (ml_available model_loaded : Bool)
    (inference : Except String (List YoloBox)) (width height : ℚ)
    (trackPlayers trackBall : Bool) (modelType : String) (gpu : Bool)
    (frame_idx : ℕ) (draws : MockDraws) : DetectOutput :=
  if !ml_available || !model_loaded then
    detect_players_and_ball_mock width height trackPlayers trackBall
      frame_idx draws
  else
    match inference with
    | Except.error _ =>
        detect_players_and_ball_mock width height trackPlayers trackBall
          frame_idx draws
    | Except.ok boxes =>
        let pb := classifyBoxes trackPlayers trackBall width frame_idx boxes
        { players := pb.1, ball := pb.2, model_used := modelType,
          gpu_used := gpu }

/-! ## Theorems -/

theorem processedFrames_zero (k : ℕ) : processedFrames k 0 = 0 := rfl

theorem processedFrames_succ (k T : ℕ) :
    processedFrames k (T + 1) =
      processedFrames k T + (if T % k = 0 then 1 else 0) := by
  unfold processedFrames
  rw [List.range_succ, List.filter_append, List.length_append]
  congr 1
  by_cases h : T % k = 0
  · simp [sampledFrame, h]
  · simp [sampledFrame, h]

theorem processedFrames_eq_ceilDiv (k T : ℕ) (hk : 0 < k) :
    processedFrames k T = ceilDiv T k := by
  induction T with
  | zero =>
      simp only [processedFrames_zero, ceilDiv, Nat.zero_add]
      exact (Nat.div_eq_of_lt (by omega)).symm
  | succ T ih =>
      rw [processedFrames_succ, ih]
      unfold ceilDiv
      obtain ⟨q, r, hrk, hT⟩ : ∃ q r, r < k ∧ T = r + k * q :=
        ⟨T / k, T % k, Nat.mod_lt _ hk, (Nat.mod_add_div T k).symm⟩
      subst hT
      have hmod : (r + k * q) % k = r := by
        rw [Nat.add_mul_mod_self_left, Nat.mod_eq_of_lt hrk]
      rw [hmod]
      have hkq : k * (q + 1) = k * q + k := by ring
      by_cases hr0 : r = 0
      · subst hr0
        rw [if_pos rfl]
        have h1 : 0 + k * q + k - 1 = k - 1 + k * q := by omega
        have h2 : 0 + k * q + 1 + k - 1 = k + k * q := by omega
        rw [h1, h2, Nat.add_mul_div_left _ _ hk, Nat.add_mul_div_left _ _ hk,
          Nat.div_eq_of_lt (by omega), Nat.div_self hk]
        omega
      · rw [if_neg hr0]
        have h1 : r + k * q + k - 1 = r - 1 + k * (q + 1) := by omega
        have h2 : r + k * q + 1 + k - 1 = r + k * (q + 1) := by omega
        rw [h1, h2, Nat.add_mul_div_left _ _ hk, Nat.add_mul_div_left _ _ hk,
          Nat.div_eq_of_lt (by omega), Nat.div_eq_of_lt hrk]
        omega

/-- `ceilDiv` really is the ceiling of the rational quotient. -/
theorem ceilDiv_eq_nat_ceil (T k : ℕ) (hk : 0 < k) :
    ceilDiv T k = ⌈(T : ℚ) / (k : ℚ)⌉₊ := by
  have hk0 : (0 : ℚ) < (k : ℚ) := by exact_mod_cast hk
  rcases Nat.eq_zero_or_pos T with hT | hT
  · subst hT
    simp [ceilDiv, Nat.div_eq_of_lt (show k - 1 < k by omega)]
  · unfold ceilDiv
    have hdm := Nat.div_add_mod (T + k - 1) k
    have hm : (T + k - 1) % k < k := Nat.mod_lt _ hk
    have hub : T ≤ k * ((T + k - 1) / k) := by omega
    have hd1 : 1 ≤ (T + k - 1) / k := by
      rw [Nat.le_div_iff_mul_le hk]; omega
    obtain ⟨e, he⟩ := Nat.exists_eq_add_of_le hd1
    have hlb : k * e < T := by
      rw [he] at hdm
      have hke : k * (1 + e) = k + k * e := by ring
      omega
    rw [he]
    symm
    rw [Nat.ceil_eq_iff (by omega)]
    constructor
    · rw [lt_div_iff₀ hk0]
      have h1 : (1 + e - 1 : ℕ) = e := by omega
      rw [h1]
      have h2 : e * k < T := by
        calc e * k = k * e := Nat.mul_comm _ _
        _ < T := hlb
      exact_mod_cast h2
    · rw [div_le_iff₀ hk0]
      rw [he] at hub
      have h3 : T ≤ (1 + e) * k := by
        calc T ≤ k * (1 + e) := hub
        _ = (1 + e) * k := Nat.mul_comm _ _
      exact_mod_cast h3

/-- C2: the sampling interval is `max(1, floor(fps / frameRate))`, a frame
index `i` is processed iff `i mod interval = 0`, and the number of processed
frames among `[0, totalFrames)` is `⌈totalFrames / interval⌉`. -/
theorem frame_sampling_spec (fps : ℚ) (frameRate T : ℕ) :
    frame_interval fps frameRate = max 1 (Int.toNat ⌊fps / (frameRate : ℚ)⌋) ∧
    (∀ i : ℕ, sampledFrame (frame_interval fps frameRate) i = true ↔
      i % frame_interval fps frameRate = 0) ∧
    processedFrames (frame_interval fps frameRate) T =
      ceilDiv T (frame_interval fps frameRate) ∧
    ceilDiv T (frame_interval fps frameRate) =
      ⌈(T : ℚ) / (frame_interval fps frameRate : ℚ)⌉₊ := by
  have hpos : 0 < frame_interval fps frameRate :=
    lt_of_lt_of_le Nat.one_pos (le_max_left _ _)
  exact ⟨rfl, fun i => by simp [sampledFrame],
    processedFrames_eq_ceilDiv _ _ hpos, ceilDiv_eq_nat_ceil _ _ hpos⟩

/-! ### Tracker lemmas -/

theorem getTrack_id {ts : List Track} {tid : ℕ} {t : Track}
    (h : getTrack ts tid = some t) : t.id = tid := by
  have hp := List.find?_some h
  simpa using hp

theorem getTrack_setTrack (ts : List Track) (tid : ℕ) (f : Track → Track)
    (hf : ∀ t, (f t).id = t.id) :
    getTrack (setTrack ts tid f) tid = (getTrack ts tid).map f := by
  induction ts with
  | nil => rfl
  | cons t ts ih =>
      by_cases h : t.id = tid
      · simp [getTrack, setTrack, List.find?_cons, h, hf]
      · simp only [getTrack, setTrack, List.map_cons] at ih ⊢
        rw [if_neg (by simpa using h)]
        rw [List.find?_cons, List.find?_cons]
        have hpt : (t.id == tid) = false := by simpa using h
        simp only [hpt]
        exact ih

theorem bestFold_frozen (p : Pos) (ts : List Track) (i : ℕ) (m : ℚ)
    (h : ∀ t ∈ ts, ¬ distSq p t.last_position < m) :
    ts.foldl (bestStep p) (some i, some m) = (some i, some m) := by
  induction ts with
  | nil => rfl
  | cons t ts ih =>
      have ht := h t (List.mem_cons_self _ _)
      have hstep : bestStep p (some i, some m) t = (some i, some m) := by
        simp [bestStep, ht]
      rw [List.foldl_cons, hstep]
      exact ih (fun t' ht' => h t' (List.mem_cons_of_mem _ ht'))

theorem bestFold_argmin (p : Pos) :
    ∀ (ts : List Track) (acc : Option ℕ × Option ℚ) (t0 : Track),
      t0 ∈ ts →
      distSq p t0.last_position < proximityThresholdSq →
      (∀ t' ∈ ts, t' ≠ t0 →
        distSq p t0.last_position < distSq p t'.last_position) →
      (∀ m, acc.2 = some m → distSq p t0.last_position < m) →
      (ts.foldl (bestStep p) acc).1 = some t0.id := by
  intro ts
  induction ts with
  | nil =>
      intro acc t0 hmem
      exact absurd hmem (List.not_mem_nil _)
  | cons t ts ih =>
      intro acc t0 hmem hthresh hmin hacc
      rw [List.foldl_cons]
      by_cases het : t = t0
      · subst het
        have hstep : bestStep p acc t =
            (some t.id, some (distSq p t.last_position)) := by
          cases hacc2 : acc.2 with
          | none => simp [bestStep, hacc2, hthresh]
          | some m => simp [bestStep, hacc2, hthresh, hacc m hacc2]
        rw [hstep]
        have hfrozen : ∀ t' ∈ ts,
            ¬ distSq p t'.last_position < distSq p t.last_position := by
          intro t' ht'
          by_cases h' : t' = t
          · subst h'
            exact lt_irrefl _
          · exact not_lt_of_gt (hmin t' (List.mem_cons_of_mem _ ht') h')
        rw [bestFold_frozen p ts t.id _ hfrozen]
      · have hmem' : t0 ∈ ts := by
          rcases List.mem_cons.mp hmem with h | h
          · exact absurd h.symm het
          · exact h
        refine ih (bestStep p acc t) t0 hmem' hthresh
          (fun t' ht' => hmin t' (List.mem_cons_of_mem _ ht')) ?_
        intro m hm
        unfold bestStep at hm
        by_cases hcond : ((match acc.2 with
            | none => true
            | some m' => decide (distSq p t.last_position < m')) &&
            decide (distSq p t.last_position < proximityThresholdSq)) = true
        · rw [if_pos hcond] at hm
          simp only at hm
          have hmd : m = distSq p t.last_position := by
            exact (Option.some.inj hm).symm
          subst hmd
          exact hmin t (List.mem_cons_self _ _) het
        · rw [if_neg hcond] at hm
          exact hacc m hm

theorem bestFold_none (p : Pos) :
    ∀ (ts : List Track) (acc : Option ℕ × Option ℚ),
      (acc.1 = none → acc.2 = none) →
      ((ts.foldl (bestStep p) acc).1 = none ↔
        acc.1 = none ∧
        ∀ t ∈ ts, ¬ distSq p t.last_position < proximityThresholdSq) := by
  intro ts
  induction ts with
  | nil =>
      intro acc _
      simp
  | cons t ts ih =>
      intro acc hlink
      rw [List.foldl_cons]
      by_cases hth : distSq p t.last_position < proximityThresholdSq
      · cases hacc2 : acc.2 with
        | none =>
            have hstep : bestStep p acc t =
                (some t.id, some (distSq p t.last_position)) := by
              simp [bestStep, hacc2, hth]
            rw [hstep, ih (some t.id, some (distSq p t.last_position))
              (by intro h; cases h)]
            simp [hth]
        | some m =>
            have hne : ¬ acc.1 = none := fun h => by
              rw [hlink h] at hacc2
              cases hacc2
            by_cases hdm : distSq p t.last_position < m
            · have hstep : bestStep p acc t =
                  (some t.id, some (distSq p t.last_position)) := by
                simp [bestStep, hacc2, hth, hdm]
              rw [hstep, ih (some t.id, some (distSq p t.last_position))
                (by intro h; cases h)]
              simp [hne]
            · have hstep : bestStep p acc t = acc := by
                simp [bestStep, hacc2, hdm]
              rw [hstep, ih acc hlink]
              simp [hne]
      · have hstep : bestStep p acc t = acc := by
          simp [bestStep, hth]
        rw [hstep, ih acc hlink]
        constructor
        · rintro ⟨h1, h2⟩
          refine ⟨h1, ?_⟩
          intro t' ht'
          rcases List.mem_cons.mp ht' with h | h
          · subst h
            exact hth
          · exact h2 t' h
        · rintro ⟨h1, h2⟩
          exact ⟨h1, fun t' ht' => h2 t' (List.mem_cons_of_mem _ ht')⟩

theorem bestMatch_none_iff (ts : List Track) (p : Pos) :
    bestMatch ts p = none ↔
      ∀ t ∈ ts, ¬ distSq p t.last_position < proximityThresholdSq := by
  unfold bestMatch
  rw [bestFold_none p ts (none, none) (fun _ => rfl)]
  simp

theorem bestMatch_unique_min (ts : List Track) (p : Pos) (t0 : Track)
    (hmem : t0 ∈ ts)
    (hthresh : distSq p t0.last_position < proximityThresholdSq)
    (hmin : ∀ t' ∈ ts, t' ≠ t0 →
      distSq p t0.last_position < distSq p t'.last_position) :
    bestMatch ts p = some t0.id :=
  bestFold_argmin p ts (none, none) t0 hmem hthresh hmin
    (fun m hm => by cases hm)

theorem updateOnePlayer_matched (st : TrackerState) (det : PlayerDet)
    (tid : ℕ) (t : Track)
    (hbm : bestMatch st.player_trackers det.position = some tid)
    (hget : getTrack st.player_trackers tid = some t) :
    updateOnePlayer st det =
      ({ det with
          track_id := some tid
          velocity := some ⟨det.position.x - t.prev_position.x,
                            det.position.y - t.prev_position.y⟩ },
       { st with
          player_trackers := setTrack st.player_trackers tid
            (fun u => { u with
              last_position := det.position
              prev_position := det.position }) }) := by
  have key : updateOnePlayer st det =
      (let prev :=
        match getTrack st.player_trackers tid with
        | some u => u.prev_position
        | none => det.position
      ({ det with
          track_id := some tid
          velocity := some ⟨det.position.x - prev.x,
                            det.position.y - prev.y⟩ },
       { st with
          player_trackers := setTrack st.player_trackers tid
            (fun u => { u with
              last_position := det.position
              prev_position := det.position }) })) := by
    unfold updateOnePlayer
    rw [hbm]
  rw [key, hget]

theorem updateOnePlayer_unmatched (st : TrackerState) (det : PlayerDet)
    (hbm : bestMatch st.player_trackers det.position = none) :
    updateOnePlayer st det =
      ({ det with track_id := some st.next_id, velocity := some ⟨0, 0⟩ },
       { st with
          player_trackers := st.player_trackers ++
            [⟨st.next_id, det.position, det.position⟩]
          next_id := st.next_id + 1 }) := by
  unfold updateOnePlayer
  rw [hbm]

/-! ### Claim theorems: tracker -/

/-- C3: for a detection processed by `update_players`: when a track is
strictly nearest among the tracked players and its distance is below the
proximity threshold (100), the detection receives that track's id and
velocity (current − track's previous position) and the track's
last/previous positions are updated to the current position; when no track
is within the threshold (`bestMatch … = none`, characterized below), the
detection receives the freshly allocated id with velocity (0,0).
Concretely: a frame-1 detection at (0,0) starts track 1; a frame-2
detection at (5,5) keeps id 1 with velocity (5,5); a frame-2 detection at
(500,500) instead gets new id 2 with velocity (0,0). -/
theorem player_matching_spec (st : TrackerState) (det : PlayerDet)
    (t0 : Track) (hmem : t0 ∈ st.player_trackers)
    (hthresh : distSq det.position t0.last_position < proximityThresholdSq)
    (hmin : ∀ t' ∈ st.player_trackers, t' ≠ t0 →
      distSq det.position t0.last_position <
        distSq det.position t'.last_position)
    (hget : getTrack st.player_trackers t0.id = some t0) :
    ((updateOnePlayer st det).1 =
        { det with
          track_id := some t0.id
          velocity := some ⟨det.position.x - t0.prev_position.x,
                            det.position.y - t0.prev_position.y⟩ } ∧
      getTrack (updateOnePlayer st det).2.player_trackers t0.id =
        some ⟨t0.id, det.position, det.position⟩ ∧
      (updateOnePlayer st det).2.next_id = st.next_id) ∧
    (∀ (st' : TrackerState) (det' : PlayerDet),
      bestMatch st'.player_trackers det'.position = none →
      (updateOnePlayer st' det').1 =
          { det' with track_id := some st'.next_id, velocity := some ⟨0, 0⟩ } ∧
        (updateOnePlayer st' det').2.player_trackers =
          st'.player_trackers ++ [⟨st'.next_id, det'.position, det'.position⟩] ∧
        (updateOnePlayer st' det').2.next_id = st'.next_id + 1) ∧
    (∀ (ts : List Track) (p : Pos),
      bestMatch ts p = none ↔
        ∀ t ∈ ts, ¬ distSq p t.last_position < proximityThresholdSq) ∧
    update_players TrackerState.init [⟨⟨0, 0⟩, none, none⟩] =
      ([⟨⟨0, 0⟩, some ⟨0, 0⟩, some 1⟩], ⟨[⟨1, ⟨0, 0⟩, ⟨0, 0⟩⟩], none, 2⟩) ∧
    (update_players ⟨[⟨1, ⟨0, 0⟩, ⟨0, 0⟩⟩], none, 2⟩
        [⟨⟨5, 5⟩, none, none⟩]).1 = [⟨⟨5, 5⟩, some ⟨5, 5⟩, some 1⟩] ∧
    (update_players ⟨[⟨1, ⟨0, 0⟩, ⟨0, 0⟩⟩], none, 2⟩
        [⟨⟨500, 500⟩, none, none⟩]).1 =
      [⟨⟨500, 500⟩, some ⟨0, 0⟩, some 2⟩] := by
  have hbm : bestMatch st.player_trackers det.position = some t0.id :=
    bestMatch_unique_min st.player_trackers det.position t0 hmem hthresh hmin
  have hupd := updateOnePlayer_matched st det t0.id t0 hbm hget
  refine ⟨⟨?_, ?_, ?_⟩, ?_, bestMatch_none_iff, ?_, ?_, ?_⟩
  · rw [hupd]
  · rw [hupd]
    rw [show (({ det with
          track_id := some t0.id
          velocity := some ⟨det.position.x - t0.prev_position.x,
                            det.position.y - t0.prev_position.y⟩ },
        { st with
          player_trackers := setTrack st.player_trackers t0.id
            (fun u => { u with
              last_position := det.position
              prev_position := det.position }) }) :
        PlayerDet × TrackerState).2.player_trackers =
      setTrack st.player_trackers t0.id
        (fun u => { u with
          last_position := det.position
          prev_position := det.position }) from rfl]
    rw [getTrack_setTrack st.player_trackers t0.id
      (fun u => { u with
        last_position := det.position
        prev_position := det.position }) (fun u => rfl), hget]
    rfl
  · rw [hupd]
  · intro st' det' hbm'
    have h := updateOnePlayer_unmatched st' det' hbm'
    exact ⟨by rw [h], by rw [h], by rw [h]⟩
  · rfl
  · norm_num [update_players, updateOnePlayer, bestMatch, bestStep, distSq,
      proximityThresholdSq, getTrack, setTrack]
  · norm_num [update_players, updateOnePlayer, bestMatch, bestStep, distSq,
      proximityThresholdSq, getTrack, setTrack]

theorem player_matching_spec_witness :
    (updateOnePlayer ⟨[⟨1, ⟨0, 0⟩, ⟨0, 0⟩⟩], none, 2⟩
        ⟨⟨5, 5⟩, none, none⟩).1 =
      { position := ⟨5, 5⟩
        velocity := some ⟨(5 : ℚ) - 0, (5 : ℚ) - 0⟩
        track_id := some 1 } :=
  (player_matching_spec ⟨[⟨1, ⟨0, 0⟩, ⟨0, 0⟩⟩], none, 2⟩
    ⟨⟨5, 5⟩, none, none⟩ ⟨1, ⟨0, 0⟩, ⟨0, 0⟩⟩
    (by simp)
    (by norm_num [distSq, proximityThresholdSq])
    (by
      intro t' ht' hne
      simp only [List.mem_singleton] at ht'
      exact absurd ht' hne)
    rfl).1.1

/-- C4: matching is greedy and non-exclusive: with a single existing track
(id 1, last position (0,0)) and a frame holding two detections at (1,0) and
(2,0), each within the proximity threshold of that track, `update_players`
assigns track id 1 to both detections — the matched track is not removed
from the candidate pool. -/
theorem greedy_nonexclusive_match :
    distSq ⟨1, 0⟩ ⟨0, 0⟩ < proximityThresholdSq ∧
    distSq ⟨2, 0⟩ ⟨0, 0⟩ < proximityThresholdSq ∧
    ((update_players ⟨[⟨1, ⟨0, 0⟩, ⟨0, 0⟩⟩], none, 2⟩
        [⟨⟨1, 0⟩, none, none⟩, ⟨⟨2, 0⟩, none, none⟩]).1.map
      PlayerDet.track_id) = [some 1, some 1] := by
  refine ⟨by norm_num [distSq, proximityThresholdSq],
    by norm_num [distSq, proximityThresholdSq], ?_⟩
  norm_num [update_players, updateOnePlayer, bestMatch, bestStep, distSq,
    proximityThresholdSq, getTrack, setTrack]

/-- C5: the singleton ball track appends each detected position to a history
kept at ≤ 10 entries, sets the velocity to (current − previous), and once
the history holds ≥ 3 samples attaches the trajectory prediction
`predict_trajectory history 3`; on the history [(0,0),(10,0),(20,0)] that
prediction is [(30,0),(40,0),(50,0)]. -/
theorem ball_tracker_spec (st : TrackerState) (bt : BallTrack)
    (ball : BallDet) (hbt : st.ball_tracker = some bt)
    (hlen : bt.history.length ≤ 10) :
    (∃ b' bt',
      update_ball st (some ball) =
        (some b', { st with ball_tracker := some bt' }) ∧
      bt'.history =
        (if (bt.history ++ [ball.position]).length > 10
         then (bt.history ++ [ball.position]).drop 1
         else bt.history ++ [ball.position]) ∧
      bt'.history.length ≤ 10 ∧
      bt'.last_position = ball.position ∧
      bt'.prev_position = bt.last_position ∧
      b'.position = ball.position ∧
      b'.velocity = some ⟨ball.position.x - bt.last_position.x,
                          ball.position.y - bt.last_position.y⟩ ∧
      b'.track_id = some 1 ∧
      (3 ≤ bt'.history.length →
        b'.trajectory_prediction = some (predict_trajectory bt'.history 3))) ∧
    predict_trajectory [⟨0, 0⟩, ⟨10, 0⟩, ⟨20, 0⟩] 3 =
      [⟨30, 0⟩, ⟨40, 0⟩, ⟨50, 0⟩] ∧
    (update_ball ⟨[], some ⟨⟨10, 0⟩, ⟨0, 0⟩, [⟨0, 0⟩, ⟨10, 0⟩]⟩, 1⟩
        (some ⟨⟨20, 0⟩, none, none, none⟩)).1 =
      some ⟨⟨20, 0⟩, some ⟨10, 0⟩, some 1,
        some [⟨30, 0⟩, ⟨40, 0⟩, ⟨50, 0⟩]⟩ := by
  refine ⟨?_, ?_, ?_⟩
  · unfold update_ball
    rw [hbt]
    refine ⟨_, _, rfl, rfl, ?_, rfl, rfl, rfl, rfl, rfl, ?_⟩
    · by_cases hc : (bt.history ++ [ball.position]).length > 10
      · rw [if_pos hc]
        simp only [List.length_drop, List.length_append, List.length_singleton]
        omega
      · rw [if_neg hc]
        simp only [List.length_append, List.length_singleton] at hc ⊢
        omega
    · intro h3
      rw [if_pos h3]
  · norm_num [predict_trajectory, List.range_succ]
  · norm_num [update_ball, predict_trajectory, List.range_succ]

theorem ball_tracker_spec_witness :
    ∃ b' bt',
      update_ball ⟨[], some ⟨⟨10, 0⟩, ⟨0, 0⟩, [⟨0, 0⟩, ⟨10, 0⟩]⟩, 1⟩
          (some ⟨⟨20, 0⟩, none, none, none⟩) =
        (some b',
         { player_trackers := [], ball_tracker := some bt', next_id := 1 }) ∧
      bt'.history.length ≤ 10 ∧
      b'.track_id = some 1 := by
  obtain ⟨⟨b', bt', h1, _, h3, _, _, _, _, h8, _⟩, _, _⟩ :=
    ball_tracker_spec ⟨[], some ⟨⟨10, 0⟩, ⟨0, 0⟩, [⟨0, 0⟩, ⟨10, 0⟩]⟩, 1⟩
      ⟨⟨10, 0⟩, ⟨0, 0⟩, [⟨0, 0⟩, ⟨10, 0⟩]⟩ ⟨⟨20, 0⟩, none, none, none⟩
      rfl (by norm_num)
  exact ⟨b', bt', h1, h3, h8⟩

/-- C10: `update_ball` applied to `None` returns `None` and leaves the whole
tracker state — ball track, history, player tracks, id counter —
unchanged. -/
theorem update_ball_none_noop (st : TrackerState) :
    update_ball st none = (none, st) := rfl

/-! ### Job-machine lemmas -/

theorem lookup_cancelled (jobs : JobMap) (jid : String) :
    lookupJob (jobs.map (fun p =>
        if p.1 == jid then (p.1, { p.2 with status := Status.cancelled })
        else p)) jid =
      (lookupJob jobs jid).map
        (fun j => { j with status := Status.cancelled }) := by
  induction jobs with
  | nil => rfl
  | cons p ps ih =>
      by_cases h : p.1 = jid
      · simp [lookupJob, List.find?_cons, h]
      · simp only [lookupJob, List.map_cons] at ih ⊢
        rw [if_neg (by simpa using h), List.find?_cons, List.find?_cons]
        have hp : (p.1 == jid) = false := by simpa using h
        simp only [hp]
        exact ih

theorem lookup_finalize (jobs : JobMap) (jid : String) :
    lookupJob (finalize_completed jobs jid) jid =
      (lookupJob jobs jid).map
        (fun _ => (⟨Status.completed, 100⟩ : Job)) := by
  induction jobs with
  | nil => rfl
  | cons p ps ih =>
      by_cases h : p.1 = jid
      · simp [finalize_completed, lookupJob, List.find?_cons, h]
      · simp only [finalize_completed, lookupJob, List.map_cons] at ih ⊢
        rw [if_neg (by simpa using h), List.find?_cons, List.find?_cons]
        have hp : (p.1 == jid) = false := by simpa using h
        simp only [hp]
        exact ih

theorem lookupJob_append_fresh (jobs : JobMap) (jid : String) (j : Job)
    (h : lookupJob jobs jid = none) :
    lookupJob (jobs ++ [(jid, j)]) jid = some j := by
  unfold lookupJob at h ⊢
  rw [List.find?_append]
  cases hf : jobs.find? (fun p => p.1 == jid) with
  | none => simp [List.find?]
  | some q =>
      rw [hf] at h
      cases h

theorem progressProd_le_95 (i T : ℕ) : progressProd i T ≤ 95 :=
  min_le_left _ _

theorem progressMain_mono (T : ℕ) {i j : ℕ} (hij : i ≤ j) :
    progressMain i T ≤ progressMain j T := by
  unfold progressMain
  rcases Nat.eq_zero_or_pos T with hT | hT
  · subst hT
    norm_num
  · have hT0 : (0 : ℚ) < (T : ℚ) := by exact_mod_cast hT
    have hij' : (i : ℚ) ≤ (j : ℚ) := by exact_mod_cast hij
    have hdiv : (i : ℚ) / (T : ℚ) ≤ (j : ℚ) / (T : ℚ) := by gcongr
    exact mul_le_mul_of_nonneg_right hdiv (by norm_num)

theorem progressProd_mono (T : ℕ) {i j : ℕ} (hij : i ≤ j) :
    progressProd i T ≤ progressProd j T :=
  min_le_min le_rfl (progressMain_mono T hij)

theorem progressMain_lt_100 {i T : ℕ} (h : i < T) :
    progressMain i T < 100 := by
  unfold progressMain
  have hT0 : (0 : ℚ) < (T : ℚ) := by
    exact_mod_cast Nat.pos_of_ne_zero (by omega)
  have hdiv : (i : ℚ) / (T : ℚ) < 1 :=
    (div_lt_one hT0).mpr (by exact_mod_cast h)
  calc (i : ℚ) / (T : ℚ) * 100 < 1 * 100 :=
        mul_lt_mul_of_pos_right hdiv (by norm_num)
    _ = 100 := by norm_num

theorem runSnapshots_progress_iff (T k : ℕ) :
    ∀ job ∈ runSnapshots T k,
      (job.progress = 100 ↔ job.status = Status.completed) := by
  intro job hmem
  unfold runSnapshots at hmem
  have hprod : ∀ i, progressProd i T ≠ (100 : ℚ) := by
    intro i hcontra
    have h95 := progressProd_le_95 i T
    rw [hcontra] at h95
    norm_num at h95
  simp only [List.mem_cons, List.mem_append, List.mem_map,
    List.mem_singleton, List.not_mem_nil, or_false] at hmem
  rcases hmem with h | h | ⟨i, _, h⟩ | h
  all_goals subst h
  · exact ⟨fun hp => absurd hp (by norm_num), fun hs => Status.noConfusion hs⟩
  · exact ⟨fun hp => absurd hp (by norm_num), fun hs => Status.noConfusion hs⟩
  · exact ⟨fun hp => absurd hp (hprod i), fun hs => Status.noConfusion hs⟩
  · exact ⟨fun _ => rfl, fun _ => rfl⟩

/-! ### Claim theorems: job state machine, capacity, progress -/

/-- C1 counterexample: calling `cancel_job` on a job whose status is the
terminal `completed` does not fail with a "job already finished" condition —
it succeeds and overwrites the status with `cancelled`, moving the job out
of a terminal state. -/
theorem cancel_completed_counterexample :
    Status.isTerminal Status.completed = true ∧
    cancel_job [("job-1", ⟨Status.completed, 100⟩)] "job-1" =
      (CancelOutcome.success, [("job-1", ⟨Status.cancelled, 100⟩)]) :=
  ⟨rfl, rfl⟩

/-- C1 (amended): no terminal-state check exists anywhere. `cancel_job`
fails only on an unknown id (404); on any job id present in the registry —
whatever its status, terminal included — it succeeds and unconditionally
sets the status to `cancelled`. And `main.py`'s execution loop, which never
reads the cancellation flag, unconditionally overwrites the job's record
with `completed`/progress 100 at finalization, moving even a mid-run
`cancelled` job out of that terminal state. Status transitions are
therefore not confined to
`pending → processing → {completed, failed, cancelled}`. -/
theorem cancel_job_spec (jobs : JobMap) (jid : String) (j : Job)
    (h : lookupJob jobs jid = some j) :
    ((cancel_job jobs jid).1 = CancelOutcome.success ∧
     lookupJob (cancel_job jobs jid).2 jid =
       some { j with status := Status.cancelled }) ∧
    (∀ (jobs' : JobMap) (jid' : String) (j' : Job),
      lookupJob jobs' jid' = some j' →
      lookupJob (finalize_completed jobs' jid') jid' =
        some ⟨Status.completed, 100⟩) := by
  constructor
  · have hsome : (jobs.find? (fun p => p.1 == jid)).isSome = true := by
      unfold lookupJob at h
      cases hf : jobs.find? (fun p => p.1 == jid) with
      | none =>
          rw [hf] at h
          cases h
      | some q => simp
    unfold cancel_job
    rw [if_pos hsome]
    refine ⟨rfl, ?_⟩
    show lookupJob (jobs.map _) jid = _
    rw [lookup_cancelled, h]
    rfl
  · intro jobs' jid' j' h'
    rw [lookup_finalize, h']
    rfl

theorem cancel_job_spec_witness :
    ((cancel_job [("j", ⟨Status.failed, 50⟩)] "j").1 =
       CancelOutcome.success ∧
     lookupJob (cancel_job [("j", ⟨Status.failed, 50⟩)] "j").2 "j" =
       some ⟨Status.cancelled, 50⟩) ∧
    lookupJob (finalize_completed [("k", ⟨Status.cancelled, 40⟩)] "k") "k" =
      some ⟨Status.completed, 100⟩ := by
  have h := cancel_job_spec [("j", ⟨Status.failed, 50⟩)] "j"
    ⟨Status.failed, 50⟩ rfl
  exact ⟨h.1, h.2 [("k", ⟨Status.cancelled, 40⟩)] "k"
    ⟨Status.cancelled, 40⟩ rfl⟩

/-- C6 counterexample: in `main.py` the progress recorded after sampled
frame 96 of a 100-frame video (interval 1) is 96, not
`min(95, 96) = 95` — the 95 cap exists only in `production_main.py`. -/
theorem progress_main_exceeds_cap :
    sampledFrame 1 96 = true ∧
    progressMain 96 100 = 96 ∧
    min 95 (progressMain 96 100) = 95 ∧
    progressMain 96 100 ≠ min 95 (progressMain 96 100) := by
  refine ⟨rfl, ?_, ?_, ?_⟩ <;> norm_num [progressMain]

/-- C6 (amended): `production_main.py` records
`min(95, frameIndex/totalFrames*100)` after each sampled frame — bounded by
95 and monotone in the frame index — and sets 100 only at finalization, so
along a production run progress = 100 exactly at the `completed` snapshot;
`main.py` records the uncapped `frameIndex/totalFrames*100`, which can
exceed 95 but stays below 100 for every frame index below the total. -/
theorem progress_invariants (T k i j : ℕ) (hij : i ≤ j) :
    progressProd i T = min 95 ((i : ℚ) / (T : ℚ) * 100) ∧
    progressProd i T ≤ 95 ∧
    progressProd i T ≤ progressProd j T ∧
    progressMain i T ≤ progressMain j T ∧
    (i < T → progressMain i T < 100) ∧
    (∀ job ∈ runSnapshots T k,
      (job.progress = 100 ↔ job.status = Status.completed)) :=
  ⟨rfl, progressProd_le_95 i T, progressProd_mono T hij,
   progressMain_mono T hij, fun h => progressMain_lt_100 h,
   runSnapshots_progress_iff T k⟩

theorem progress_invariants_witness :
    progressProd 1 100 ≤ progressProd 2 100 ∧
    (1 < 100 → progressMain 1 100 < 100) :=
  ⟨(progress_invariants 100 1 1 2 (by norm_num)).2.2.1,
   (progress_invariants 100 1 1 2 (by norm_num)).2.2.2.2.1⟩

/-- C7: submission at capacity — when the number of jobs whose status is
`pending` or `processing` has reached `MAX_CONCURRENT_JOBS` — fails
synchronously with HTTP 429 and leaves the registry unchanged (no job state
is created); below the bound it registers a fresh job with status `pending`
and returns its id. -/
theorem start_detection_capacity (jobs : JobMap) (maxc : ℕ) (jid : String) :
    (activeCount jobs ≥ maxc →
      start_detection_with_ml jobs maxc jid =
        (StartOutcome.capacityError 429, jobs)) ∧
    (activeCount jobs < maxc →
      (start_detection_with_ml jobs maxc jid).1 = StartOutcome.started jid ∧
      (start_detection_with_ml jobs maxc jid).2 =
        jobs ++ [(jid, ⟨Status.pending, 0⟩)] ∧
      (lookupJob jobs jid = none →
        lookupJob (start_detection_with_ml jobs maxc jid).2 jid =
          some ⟨Status.pending, 0⟩)) := by
  constructor
  · intro h
    unfold start_detection_with_ml
    rw [if_pos h]
  · intro h
    have hn : ¬ activeCount jobs ≥ maxc := by omega
    unfold start_detection_with_ml
    rw [if_neg hn]
    exact ⟨rfl, rfl, fun hfresh => lookupJob_append_fresh jobs jid _ hfresh⟩

theorem start_detection_capacity_witness :
    start_detection_with_ml
        [("a", ⟨Status.pending, 0⟩), ("b", ⟨Status.processing, 50⟩),
         ("c", ⟨Status.pending, 0⟩)] 3 "d" =
      (StartOutcome.capacityError 429,
       [("a", ⟨Status.pending, 0⟩), ("b", ⟨Status.processing, 50⟩),
        ("c", ⟨Status.pending, 0⟩)]) ∧
    (start_detection_with_ml [("a", ⟨Status.completed, 100⟩)] 3 "d").1 =
      StartOutcome.started "d" :=
  ⟨(start_detection_capacity
      [("a", ⟨Status.pending, 0⟩), ("b", ⟨Status.processing, 50⟩),
       ("c", ⟨Status.pending, 0⟩)] 3 "d").1 (by decide),
   ((start_detection_capacity [("a", ⟨Status.completed, 100⟩)] 3 "d").2
      (by decide)).1⟩

/-! ### Detection-provider lemmas -/

theorem classifyFold_ball_frozen (tp tb : Bool) (w : ℚ) (fi : ℕ) :
    ∀ (boxes : List YoloBox) (acc : List PlayerRec × Option BallRec)
      (b0 : BallRec), acc.2 = some b0 →
      (boxes.foldl (classifyStep tp tb w fi) acc).2 = some b0 := by
  intro boxes
  induction boxes with
  | nil =>
      intro acc b0 h
      exact h
  | cons b bs ih =>
      intro acc b0 h
      rw [List.foldl_cons]
      apply ih
      by_cases h1 : (b.class_name == "person" && tp) = true
      · simp [classifyStep, h1, h]
      · simp [classifyStep, h1, h]

theorem classifyFold_ball (tp tb : Bool) (w : ℚ) (fi : ℕ) :
    ∀ (boxes : List YoloBox) (acc : List PlayerRec × Option BallRec),
      acc.2 = none →
      (boxes.foldl (classifyStep tp tb w fi) acc).2 =
        (if tb then
          (boxes.find? (fun b => b.class_name == "sports ball")).map mkBall
         else none) := by
  intro boxes
  induction boxes with
  | nil =>
      intro acc h
      simp [h]
  | cons b bs ih =>
      intro acc h
      rw [List.foldl_cons, List.find?_cons]
      by_cases hball : (b.class_name == "sports ball") = true
      · have hb : b.class_name = "sports ball" := by simpa using hball
        have hperson : (b.class_name == "person") = false := by
          rw [hb]
          decide
        by_cases htb : tb = true
        · have hstep : classifyStep tp tb w fi acc b =
              (acc.1, some (mkBall b)) := by
            simp [classifyStep, hperson, hball, htb, h]
          rw [hstep, classifyFold_ball_frozen tp tb w fi bs _ _ rfl]
          simp [hball, htb]
        · have htb' : tb = false := by simpa using htb
          have hstep : classifyStep tp tb w fi acc b = acc := by
            simp [classifyStep, hperson, htb']
          rw [hstep, ih acc h]
          simp [htb']
      · have hstep2 : (classifyStep tp tb w fi acc b).2 = none := by
          by_cases hp : (b.class_name == "person" && tp) = true
          · simp [classifyStep, hp, h]
          · simp [classifyStep, hp, hball, h]
        rw [ih (classifyStep tp tb w fi acc b) hstep2]
        simp [hball]

/-- A fixed assignment for the mock's random draws, used by witnesses. -/
def zeroDraws : MockDraws :=
  { poisson := 0
    player_dx := fun _ => 0
    player_dy := fun _ => 0
    player_conf := fun _ => 0
    jersey_roll := fun _ => 0
    jersey_num := fun _ => 0
    ball_roll := 0
    ball_branch := 0
    ball_choice := 0
    ball_nx := 0
    ball_ny := 0
    ball_ux := 0
    ball_uy := 0
    ball_conf := 0
    ball_vx := 0
    ball_vy := 0 }

/-! ### Claim theorems: detection provider -/

/-- C8: whenever the ML stack is unavailable, the model is not loaded, or
the inference call raises, `detect_with_yolo` returns exactly the synthetic
(mock) output for that frame, whose `model_used` field is tagged `"mock"`;
the function is total in all of these cases, so the frame's failure never
escapes to abort the enclosing job. -/
theorem detect_fallback_spec (ml model : Bool)
    (inference : Except String (List YoloBox)) (w h : ℚ) (tp tb : Bool)
    (mt : String) (gpu : Bool) (fi : ℕ) (r : MockDraws)
    (hfail : ml = false ∨ model = false ∨ ∃ e, inference = Except.error e) :
    detect_with_yolo ml model inference w h tp tb mt gpu fi r =
      detect_players_and_ball_mock w h tp tb fi r ∧
    (detect_with_yolo ml model inference w h tp tb mt gpu fi r).model_used =
      "mock" := by
  have hmock : detect_with_yolo ml model inference w h tp tb mt gpu fi r =
      detect_players_and_ball_mock w h tp tb fi r := by
    unfold detect_with_yolo
    rcases hfail with h1 | h1 | ⟨e, h1⟩
    · subst h1
      simp
    · subst h1
      simp
    · rw [h1]
      by_cases hml : (!ml || !model) = true
      · rw [if_pos hml]
      · rw [if_neg hml]
  exact ⟨hmock, by rw [hmock]; rfl⟩

theorem detect_fallback_spec_witness :
    detect_with_yolo false true (Except.ok []) 100 100 true true "yolov8n"
        false 0 zeroDraws =
      detect_players_and_ball_mock 100 100 true true 0 zeroDraws ∧
    (detect_with_yolo false true (Except.ok []) 100 100 true true "yolov8n"
        false 0 zeroDraws).model_used = "mock" :=
  detect_fallback_spec false true (Except.ok []) 100 100 true true "yolov8n"
    false 0 zeroDraws (Or.inl rfl)

/-- C9: the real detector emits at most one ball per frame: the ball slot of
the box-classification loop holds the ball built from the first box labelled
"sports ball" in iteration order when `trackBall` is set (and nothing when
it is not), so every later qualifying box is ignored — even one with higher
confidence, as the concrete two-ball frame shows. -/
theorem ball_first_match_wins (tp tb : Bool) (w : ℚ) (fi : ℕ)
    (boxes : List YoloBox) :
    (classifyBoxes tp tb w fi boxes).2 =
      (if tb then
        (boxes.find? (fun b => b.class_name == "sports ball")).map mkBall
       else none) ∧
    (classifyBoxes true true 200 0
        [⟨"sports ball", 1 / 2, 0, 0, 10, 10⟩,
         ⟨"sports ball", 9 / 10, 50, 50, 60, 60⟩]).2 =
      some (mkBall ⟨"sports ball", 1 / 2, 0, 0, 10, 10⟩) ∧
    (1 / 2 : ℚ) < 9 / 10 := by
  refine ⟨classifyFold_ball tp tb w fi boxes ([], none) rfl, ?_, by norm_num⟩
  rfl

end DetectionService
